import Mathlib

/-!
Shallow embedding of the `lemmego/fsys` storage library.

The Go package defines a storage interface (`fs.go`) with two implementations
in scope here: `MemoryStorage` (`memory_storage.go`), a map from path to an
in-memory file guarded by a lock, and `GCSStorage` (`google_cloud_storage.go`),
a thin adapter over the Google Cloud Storage client.

Modelling conventions:
* Byte slices / `bytes.Buffer` contents are `List Nat`.
* A Go `map[string]*File` is a function `String → Option File`; the memory
  backend's operations are state-passing functions returning the new map and
  an `Option Err` (`none` = the Go method returned a nil error).
* Remote GCS state is a function `String → Option (List Nat)` from object
  path to contents.  Network calls can fail for reasons outside the program,
  so each GCS operation takes explicit `Option Err` fault-injection arguments
  describing whether the underlying client call fails; the definition then
  mirrors how the Go code reacts to that outcome.
* The single-threaded semantics is modelled; the `sync.RWMutex` in
  `MemoryStorage` only serialises calls and has no sequential effect.
-/

deriving instance DecidableEq for Except

namespace Fsys

/-- Byte content of a stored object (a Go byte slice / `bytes.Buffer`). -/
abbrev Content := List Nat

/-- The errors the embedded operations can surface.
`notExist` is `os.ErrNotExist` / `storage.ErrObjectNotExist`;
`dirMustEndWithSep` is `errors.New("directory path must end with '/'")`;
`openUnsupported` is `errors.New("open is not supported for in-memory storage")`;
`injected n` stands for an arbitrary backend I/O error returned by the
GCS client (used for fault injection). -/
inductive Err
  | notExist
  | dirMustEndWithSep
  | openUnsupported
  | injected (n : Nat)
  deriving DecidableEq

/-- An in-memory file (`File` in `memory_storage.go`): a name and a content
buffer. -/
structure File where
  Name : String
  Content : Content
  deriving DecidableEq

/-- The `files` map of `MemoryStorage`. -/
def MemState := String → Option File

/-- `NewMemoryStorage` starts with an empty map. -/
def newMemoryStorage : MemState := fun _ => none

/-- `MemoryStorage.Read`: look the path up in the map; absent paths give
`os.ErrNotExist`, present paths give a reader over the file's bytes. -/
def memRead (st : MemState) (path : String) : Except Err Content :=
  match st path with
  | none => .error .notExist
  | some file => .ok file.Content

/-- `MemoryStorage.Write`: unconditionally store a fresh `File` at the path;
never fails. -/
def memWrite (st : MemState) (path : String) (contents : Content) :
    MemState × Option Err :=
  (fun q => if q = path then some ⟨path, contents⟩ else st q, none)

/-- `MemoryStorage.Delete`: error on an absent path, otherwise remove the
entry. -/
def memDelete (st : MemState) (path : String) : MemState × Option Err :=
  match st path with
  | none => (st, some .notExist)
  | some _ => (fun q => if q = path then none else st q, none)

/-- `MemoryStorage.Exists`: membership in the map; never fails. -/
def memExists (st : MemState) (path : String) : Bool × Option Err :=
  ((st path).isSome, none)

/-- `MemoryStorage.Rename`: error when `oldPath` is absent; otherwise first
`fs.files[newPath] = file`, then `delete(fs.files, oldPath)`, in that order
(so renaming a path onto itself deletes the entry). -/
def memRename (st : MemState) (oldPath newPath : String) : MemState × Option Err :=
  match st oldPath with
  | none => (st, some .notExist)
  | some file =>
    let st1 : MemState := fun q => if q = newPath then some file else st q
    (fun q => if q = oldPath then none else st1 q, none)

/-- `MemoryStorage.Copy`: error when the source is absent; otherwise store a
fresh `File` at the destination holding a copy of the source bytes. -/
def memCopy (st : MemState) (sourcePath destinationPath : String) :
    MemState × Option Err :=
  match st sourcePath with
  | none => (st, some .notExist)
  | some sourceFile =>
    (fun q => if q = destinationPath then some ⟨destinationPath, sourceFile.Content⟩
              else st q, none)

/-- `MemoryStorage.CreateDirectory`: pure validation (`strings.HasSuffix(path, "/")`),
the map is never touched. -/
def memCreateDirectory (st : MemState) (path : String) : MemState × Option Err :=
  if !(path.endsWith "/") then (st, some .dirMustEndWithSep) else (st, none)

/-- `MemoryStorage.GetUrl`: `os.ErrNotExist` for an absent path, otherwise the
synthetic URL `mem://` ++ path. -/
def memGetUrl (st : MemState) (path : String) : Except Err String :=
  if !(memExists st path).1 then .error .notExist
  else .ok ("mem://" ++ path)

/-- Split a character list on `/`, keeping empty components (the semantics of
`strings.Split` on the separator). -/
def splitSlash : List Char → List Char → List (List Char)
  | acc, [] => [acc.reverse]
  | acc, c :: rest =>
    if c = '/' then acc.reverse :: splitSlash [] rest
    else splitSlash (c :: acc) rest

/-- Join components back with `/` separators. -/
def joinSlash : List (List Char) → List Char
  | [] => []
  | [c] => c
  | c :: rest => c ++ '/' :: joinSlash rest

/-- Component loop of Go's `path/filepath.Clean` on Unix: process the
slash-separated components against a stack, dropping empty and `.` components
and resolving `..` (at the root a leading `..` is dropped; in a relative path
it is kept when nothing can be popped). -/
def cleanLoop (rooted : Bool) : List (List Char) → List (List Char) → List (List Char)
  | stack, [] => stack.reverse
  | stack, c :: rest =>
    if c = [] || c = ['.'] then cleanLoop rooted stack rest
    else if c = ['.', '.'] then
      match stack with
      | [] => if rooted then cleanLoop rooted [] rest
              else cleanLoop rooted [['.', '.']] rest
      | top :: stk =>
        if top = ['.', '.'] then cleanLoop rooted (['.', '.'] :: top :: stk) rest
        else cleanLoop rooted stk rest
    else cleanLoop rooted (c :: stack) rest

/-- Go's `path/filepath.Clean` on Unix paths: purely lexical normalisation. -/
def pathClean (path : String) : String :=
  match path.data with
  | [] => "."
  | c0 :: _ =>
    let rooted := c0 = '/'
    let comps := cleanLoop rooted [] (splitSlash [] path.data)
    if comps = [] then (if rooted then "/" else ".")
    else ⟨(if rooted then ['/'] else []) ++ joinSlash comps⟩

/-- Go's `path/filepath.Join` on Unix for two elements: skip leading empty
elements, join the rest with `/` and `Clean` the result; all-empty input
yields the empty string. -/
def filepathJoin (dir name : String) : String :=
  if dir = "" then (if name = "" then "" else pathClean name)
  else pathClean (dir ++ "/" ++ name)

/-- `MemoryStorage.Upload`.  The `stream` argument is the outcome of
`io.Copy(&buf, file)`: either the drained bytes or a read error.  On a read
error the map is untouched and the error returned; otherwise the bytes are
stored at `filepath.Join(dir, header.Filename)`.  The middle component is the
returned `*os.File` handle — the Go code always returns `nil, nil` on
success, so it is always `none`. -/
def memUpload (st : MemState) (stream : Except Err Content)
    (filename dir : String) : MemState × Option Content × Option Err :=
  match stream with
  | .error e => (st, none, some e)
  | .ok buf =>
    let filePath := filepathJoin dir filename
    (fun q => if q = filePath then some ⟨filePath, buf⟩ else st q, none, none)

/-! ## GCS backend (`google_cloud_storage.go`)

The remote bucket is a map from object path to contents.  Each operation
takes fault-injection arguments standing for the outcome of the underlying
client calls (`none` = the call succeeds). -/

/-- Remote GCS bucket contents. -/
def GStore := String → Option Content

/-- `GCSStorage.Write`: a `NewWriter` is created, `writer.Write(contents)`
runs, and `writer.Close()` runs via `defer` — its error is DISCARDED.  The
GCS client buffers writes and commits the object only when `Close` succeeds,
so: a `Write` error is returned and nothing is stored; a `Close` error means
nothing is stored yet `nil` is returned; only when both succeed is the object
committed. -/
def gcsWrite (writeFail closeFail : Option Err) (st : GStore)
    (path : String) (contents : Content) : GStore × Option Err :=
  match writeFail with
  | some e => (st, some e)
  | none =>
    match closeFail with
    | some _ => (st, none)
    | none => (fun p => if p = path then some contents else st p, none)

/-- What the spec's propagation policy says `Write` should return: the first
error of the write step or the close step, `none` only when both
succeeded.  (Spec-side definition, for comparison with `gcsWrite`.) -/
def gcsWriteSpecErr (writeFail closeFail : Option Err) : Option Err :=
  match writeFail with
  | some e => some e
  | none => closeFail

/-- `GCSStorage.Delete`: remote object delete; an absent object surfaces the
client's not-found error, and an injected fault is returned unchanged. -/
def gcsDelete (deleteFail : Option Err) (st : GStore) (path : String) :
    GStore × Option Err :=
  match deleteFail with
  | some e => (st, some e)
  | none =>
    match st path with
    | none => (st, some .notExist)
    | some _ => (fun p => if p = path then none else st p, none)

/-- `GCSStorage.Exists`: metadata probe via `Attrs`; `ErrObjectNotExist`
becomes `(false, nil)`, any other error propagates as `(false, err)`. -/
def gcsExists (attrsFail : Option Err) (st : GStore) (path : String) :
    Bool × Option Err :=
  match attrsFail with
  | some e => (false, some e)
  | none =>
    match st path with
    | none => (false, none)
    | some _ => (true, none)

/-- `GCSStorage.Copy`: `dst.CopierFrom(src).Run(ctx)`; an absent source is a
not-found error, otherwise the destination object is created with the
source's bytes. -/
def gcsCopy (copyFail : Option Err) (st : GStore) (sourcePath destPath : String) :
    GStore × Option Err :=
  match copyFail with
  | some e => (st, some e)
  | none =>
    match st sourcePath with
    | none => (st, some .notExist)
    | some c => (fun p => if p = destPath then some c else st p, none)

/-- `GCSStorage.Rename`: `Copy(oldPath, newPath)`, and only if that returned
a nil error, `Delete(oldPath)`; a copy error is returned at once without
attempting the delete. -/
def gcsRename (copyFail deleteFail : Option Err) (st : GStore)
    (oldPath newPath : String) : GStore × Option Err :=
  match gcsCopy copyFail st oldPath newPath with
  | (st', some e) => (st', some e)
  | (st', none) => gcsDelete deleteFail st' oldPath

/-- `GCSStorage.GetUrl`: pure string formatting over the bucket name and the
path; the remote state is never consulted and the error is always nil. -/
def gcsGetUrl (bucketName : String) (_st : GStore) (path : String) :
    String × Option Err :=
  ("https://storage.googleapis.com/" ++ bucketName ++ "/" ++ path, none)

/-- `GCSStorage.Open`: download the object into a fresh temporary file and
return the rewound handle.  `tempFail` stands for a local I/O error while
creating, filling or rewinding the temporary file.  The result on success is
the snapshot of the object's bytes held by the handle. -/
def gcsOpen (tempFail : Option Err) (st : GStore) (path : String) :
    Except Err Content :=
  match st path with
  | none => .error .notExist
  | some c =>
    match tempFail with
    | some e => .error e
    | none => .ok c

/-- `GCSStorage.Upload`: stream into a writer for `dir ++ "/" ++ filename`
(`fmt.Sprintf("%s/%s", dir, header.Filename)`), close it — this time the
`Close` error IS checked — then return `gcs.Open(objectPath)`. -/
def gcsUpload (copyFail closeFail tempFail : Option Err) (st : GStore)
    (content : Content) (filename dir : String) :
    GStore × Except Err Content :=
  let objectPath := dir ++ "/" ++ filename
  match copyFail with
  | some e => (st, .error e)
  | none =>
    match closeFail with
    | some e => (st, .error e)
    | none =>
      let st' : GStore := fun p => if p = objectPath then some content else st p
      (st', gcsOpen tempFail st' objectPath)

/-! ## Operation traces on the memory backend

For the read-after-write invariant we run an arbitrary list of mutating
memory-backend operations between the write and the read. -/

/-- One mutating call on `MemoryStorage` (the read-only calls `Read`,
`Exists`, `GetUrl`, `Open`, `Driver` never change the map). -/
inductive MemOp
  | write (path : String) (contents : Content)
  | delete (path : String)
  | rename (oldPath newPath : String)
  | copy (sourcePath destinationPath : String)
  | createDirectory (path : String)
  | upload (stream : Except Err Content) (filename dir : String)

/-- Execute one memory-backend call, returning the new map and the call's
error result. -/
def memExec : MemOp → MemState → MemState × Option Err
  | .write p c, st => memWrite st p c
  | .delete p, st => memDelete st p
  | .rename a b, st => memRename st a b
  | .copy a b, st => memCopy st a b
  | .createDirectory p, st => memCreateDirectory st p
  | .upload s f d, st =>
    let r := memUpload st s f d
    (r.1, r.2.2)

/-- Whether a call targets path `p`, i.e. whether its success could create,
overwrite or remove the entry at `p`. -/
def MemOp.touches (p : String) : MemOp → Bool
  | .write q _ => q == p
  | .delete q => q == p
  | .rename a b => a == p || b == p
  | .copy _ b => b == p
  | .createDirectory _ => false
  | .upload _ f d => filepathJoin d f == p

/-- A trace is clean for `p` when every call in it, run from the state it
actually sees, either does not target `p` or returns an error. -/
def cleanFor (p : String) : List MemOp → MemState → Bool
  | [], _ => true
  | op :: rest, st =>
    (!(op.touches p) || (memExec op st).2.isSome) && cleanFor p rest (memExec op st).1

/-- Run a trace of memory-backend calls from a state. -/
def runTrace (ops : List MemOp) (st : MemState) : MemState :=
  ops.foldl (fun s op => (memExec op s).1) st

/-- A memory-backend call that returns an error leaves the map exactly as it
was: every error return in `memory_storage.go` happens before any mutation. -/
theorem memExec_error_frame (op : MemOp) (st : MemState)
    (h : (memExec op st).2.isSome = true) : (memExec op st).1 = st := by
  cases op with
  | write p c => simp [memExec, memWrite] at h
  | delete p =>
    cases hq : st p <;> simp [memExec, memDelete, hq] at h ⊢
  | rename a b =>
    cases hq : st a <;> simp [memExec, memRename, hq] at h ⊢
  | copy a b =>
    cases hq : st a <;> simp [memExec, memCopy, hq] at h ⊢
  | createDirectory p =>
    simp only [memExec, memCreateDirectory]
    split <;> rfl
  | upload s f d =>
    cases s <;> simp [memExec, memUpload] at h ⊢

/-- A memory-backend call that does not target `p` leaves the entry at `p`
unchanged, whether it succeeds or not. -/
theorem memExec_untouched (op : MemOp) (st : MemState) (p : String)
    (h : op.touches p = false) : (memExec op st).1 p = st p := by
  cases op with
  | write q c =>
    simp only [MemOp.touches, beq_eq_false_iff_ne, ne_eq] at h
    simp only [memExec, memWrite]
    exact if_neg (fun hpq => h hpq.symm)
  | delete q =>
    simp only [MemOp.touches, beq_eq_false_iff_ne, ne_eq] at h
    cases hq : st q <;> simp only [memExec, memDelete, hq]
    exact if_neg (fun hpq => h hpq.symm)
  | rename a b =>
    simp only [MemOp.touches, Bool.or_eq_false_iff, beq_eq_false_iff_ne, ne_eq] at h
    cases hq : st a <;> simp only [memExec, memRename, hq]
    rw [if_neg (fun hpq => h.1 hpq.symm), if_neg (fun hpq => h.2 hpq.symm)]
  | copy a b =>
    simp only [MemOp.touches, beq_eq_false_iff_ne, ne_eq] at h
    cases hq : st a <;> simp only [memExec, memCopy, hq]
    exact if_neg (fun hpq => h hpq.symm)
  | createDirectory q =>
    simp only [memExec, memCreateDirectory]
    split <;> rfl
  | upload s f d =>
    simp only [MemOp.touches, beq_eq_false_iff_ne, ne_eq] at h
    cases s <;> simp only [memExec, memUpload]
    exact if_neg (fun hpq => h hpq.symm)

/-- Single-step frame: a call that does not target `p`, or that fails, leaves
the entry at `p` unchanged. -/
theorem memExec_frame (op : MemOp) (st : MemState) (p : String)
    (h : (!(op.touches p) || (memExec op st).2.isSome) = true) :
    (memExec op st).1 p = st p := by
  rcases Bool.or_eq_true _ _ |>.mp h with h' | h'
  · exact memExec_untouched op st p (by simpa using h')
  · exact congrFun (memExec_error_frame op st h') p

/-- Trace frame: a trace that is clean for `p` preserves the entry at `p`. -/
theorem runTrace_frame (p : String) (ops : List MemOp) :
    ∀ st : MemState, cleanFor p ops st = true → runTrace ops st p = st p := by
  induction ops with
  | nil => intro st _; rfl
  | cons op rest ih =>
    intro st h
    rw [cleanFor, Bool.and_eq_true] at h
    calc runTrace (op :: rest) st p
        = runTrace rest (memExec op st).1 p := rfl
      _ = (memExec op st).1 p := ih _ h.2
      _ = st p := memExec_frame op st p h.1

/-- A sample trace: writes, copies and deletes away from `docs/a.txt`, plus a
rename targeting `docs/a.txt` that fails because its source is absent. -/
def demoOps : List MemOp :=
  [.write "docs/b.txt" [1], .copy "docs/a.txt" "docs/b.txt",
   .rename "missing" "docs/a.txt", .delete "docs/b.txt", .createDirectory "docs/"]

/-! ## Claims -/

/-- C1: on the memory backend, a successful `Write(p, c)` followed by
`Read(p)`, with no intervening successful call targeting `p` (no successful
`Write(p, ·)`, `Delete(p)`, or `Rename`/`Copy`/`Upload` affecting `p`),
yields a reader whose full contents are exactly `c`; the write itself always
succeeds. -/
theorem memWrite_then_read (st : MemState) (p : String) (c : Content)
    (ops : List MemOp) (hclean : cleanFor p ops (memWrite st p c).1 = true) :
    (memWrite st p c).2 = none ∧
    memRead (runTrace ops (memWrite st p c).1) p = .ok c := by
  refine ⟨rfl, ?_⟩
  have hframe : runTrace ops (memWrite st p c).1 p = some ⟨p, c⟩ := by
    rw [runTrace_frame p ops _ hclean]
    simp [memWrite]
  simp [memRead, hframe]

/-- Witness for C1 at a concrete state and trace: the trace writes, copies
and deletes other paths and fails a rename onto `docs/a.txt`. -/
theorem memWrite_then_read_witness :
    cleanFor "docs/a.txt" demoOps (memWrite newMemoryStorage "docs/a.txt" [104, 105]).1 = true ∧
    memRead (runTrace demoOps (memWrite newMemoryStorage "docs/a.txt" [104, 105]).1)
      "docs/a.txt" = .ok [104, 105] :=
  ⟨by decide,
   (memWrite_then_read newMemoryStorage "docs/a.txt" [104, 105] demoOps (by decide)).2⟩

/-- C7: on the memory backend, `Delete(p)` on an absent `p` returns the
not-found error and leaves the map unchanged; `Delete(p)` on an existing `p`
succeeds and afterwards `Exists(p)` reports false (with a nil error). -/
theorem memDelete_spec (st : MemState) (p : String) :
    (st p = none → memDelete st p = (st, some .notExist)) ∧
    (∀ f, st p = some f →
      (memDelete st p).2 = none ∧
      memExists (memDelete st p).1 p = (false, none)) := by
  constructor
  · intro h
    simp [memDelete, h]
  · intro f h
    simp [memDelete, h, memExists]

/-- Witness for C7: both branches at concrete states. -/
theorem memDelete_spec_witness :
    memDelete newMemoryStorage "a" = (newMemoryStorage, some .notExist) ∧
    memExists (memDelete (memWrite newMemoryStorage "a" [1]).1 "a").1 "a" = (false, none) :=
  ⟨(memDelete_spec newMemoryStorage "a").1 rfl,
   ((memDelete_spec (memWrite newMemoryStorage "a" [1]).1 "a").2 ⟨"a", [1]⟩ (by decide)).2⟩

/-- C8: on the memory backend, `CreateDirectory(path)` returns the
validation error exactly when `path` does not end with `/`, returns a nil
error otherwise, and never changes the map. -/
theorem memCreateDirectory_spec (st : MemState) (path : String) :
    (memCreateDirectory st path).2
      = (if path.endsWith "/" then none else some .dirMustEndWithSep) ∧
    (memCreateDirectory st path).1 = st := by
  constructor
  · simp only [memCreateDirectory]
    cases h : path.endsWith "/" <;> simp [h]
  · simp only [memCreateDirectory]
    split <;> rfl

/-- A sample memory state holding one file `"a"` with bytes `[1, 2]`. -/
def stA : MemState := (memWrite newMemoryStorage "a" [1, 2]).1

/-- Counterexample to C4 as stated (for all paths a, b): renaming `"a"` onto
itself succeeds (nil error), yet `Read("a")` afterwards does not return the
pre-rename content — the entry is gone. -/
theorem memRename_same_path_counterexample :
    (memRename stA "a" "a").2 = none ∧
    memRead stA "a" = .ok [1, 2] ∧
    memRead (memRename stA "a" "a").1 "a" ≠ .ok [1, 2] := by
  decide

/-- C4 (amended to distinct paths): on the memory backend, for `a ≠ b`,
`Rename(a, b)` fails with the not-found error exactly when `a` is absent
(leaving the map unchanged), and on an existing `a` it succeeds, afterwards
`Exists(a)` is false and `Read(b)` returns the content `Read(a)` returned
immediately before the rename. -/
theorem memRename_moves (st : MemState) (a b : String) (hab : a ≠ b) :
    (st a = none → memRename st a b = (st, some .notExist)) ∧
    (∀ f, st a = some f →
      (memRename st a b).2 = none ∧
      memExists (memRename st a b).1 a = (false, none) ∧
      memRead (memRename st a b).1 b = .ok f.Content ∧
      memRead st a = .ok f.Content) := by
  constructor
  · intro h
    simp [memRename, h]
  · intro f h
    refine ⟨by simp [memRename, h], ?_, ?_, by simp [memRead, h]⟩
    · simp [memRename, h, memExists]
    · simp [memRename, h, memRead, Ne.symm hab]

/-- Witness for C4 (amended) at a concrete state. -/
theorem memRename_moves_witness :
    (memRename stA "a" "b").2 = none ∧
    memExists (memRename stA "a" "b").1 "a" = (false, none) ∧
    memRead (memRename stA "a" "b").1 "b" = .ok [1, 2] ∧
    memRead stA "a" = .ok [1, 2] :=
  (memRename_moves stA "a" "b" (by decide)).2 ⟨"a", [1, 2]⟩ (by decide)

/-- C10: on the memory backend, `Rename(p, p)` on an existing `p` returns a
nil error but removes the object: afterwards `Exists(p)` is false and
`Read(p)` returns the not-found error. -/
theorem memRename_self_deletes (st : MemState) (p : String) (f : File)
    (h : st p = some f) :
    (memRename st p p).2 = none ∧
    memExists (memRename st p p).1 p = (false, none) ∧
    memRead (memRename st p p).1 p = .error .notExist := by
  simp [memRename, h, memExists, memRead]

/-- Witness for C10 at a concrete state. -/
theorem memRename_self_deletes_witness :
    (memRename stA "a" "a").2 = none ∧
    memExists (memRename stA "a" "a").1 "a" = (false, none) ∧
    memRead (memRename stA "a" "a").1 "a" = .error .notExist :=
  memRename_self_deletes stA "a" ⟨"a", [1, 2]⟩ (by decide)

/-- C5: on the memory backend, for `a ≠ b`, `Copy(a, b)` fails with the
not-found error exactly when `a` is absent (leaving the map unchanged), and
on an existing `a` it succeeds, afterwards `Read(a)` and `Read(b)` return the
same bytes, `a` is still present, and a later `Write(b, c')` makes `Read(b)`
return `c'` while `Read(a)` still returns the original bytes. -/
theorem memCopy_duplicates (st : MemState) (a b : String) (hab : a ≠ b) :
    (st a = none → memCopy st a b = (st, some .notExist)) ∧
    (∀ f, st a = some f →
      (memCopy st a b).2 = none ∧
      memRead (memCopy st a b).1 a = .ok f.Content ∧
      memRead (memCopy st a b).1 b = .ok f.Content ∧
      memExists (memCopy st a b).1 a = (true, none) ∧
      ∀ c', memRead (memWrite (memCopy st a b).1 b c').1 b = .ok c' ∧
            memRead (memWrite (memCopy st a b).1 b c').1 a = .ok f.Content) := by
  constructor
  · intro h
    simp [memCopy, h]
  · intro f h
    refine ⟨by simp [memCopy, h], ?_, ?_, ?_, fun c' => ⟨?_, ?_⟩⟩
    · simp [memCopy, h, memRead, hab]
    · simp [memCopy, h, memRead]
    · simp [memCopy, h, memExists, hab]
    · simp [memCopy, h, memWrite, memRead]
    · simp [memCopy, h, memWrite, memRead, hab, Ne.symm hab]

/-- Witness for C5 at a concrete state, including the later write to the
destination. -/
theorem memCopy_duplicates_witness :
    memRead (memCopy stA "a" "b").1 "a" = .ok [1, 2] ∧
    memRead (memCopy stA "a" "b").1 "b" = .ok [1, 2] ∧
    memRead (memWrite (memCopy stA "a" "b").1 "b" [9]).1 "b" = .ok [9] ∧
    memRead (memWrite (memCopy stA "a" "b").1 "b" [9]).1 "a" = .ok [1, 2] := by
  have h := (memCopy_duplicates stA "a" "b" (by decide)).2 ⟨"a", [1, 2]⟩ (by decide)
  exact ⟨h.2.1, h.2.2.1, (h.2.2.2.2 [9]).1, (h.2.2.2.2 [9]).2⟩

/-- C3 (code bug): when `writer.Write` succeeds but the deferred
`writer.Close` fails, `GCSStorage.Write` returns a nil error and the object
is not committed — the finalisation error is discarded by the `defer`,
whereas the propagation policy (`gcsWriteSpecErr`) requires it to be
returned. -/
theorem gcsWrite_drops_close_error (st : GStore) (path : String)
    (c : Content) (e : Err) :
    (gcsWrite none (some e) st path c).2 = none ∧
    (gcsWrite none (some e) st path c).1 = st ∧
    gcsWriteSpecErr none (some e) = some e :=
  ⟨rfl, rfl, rfl⟩

/-- C6: GCS `Rename(old, new)` is `Copy(old, new)` then `Delete(old)`, in
that order: a failing copy returns the copy error with the store unchanged
(the delete is never attempted, whatever its outcome `df` would be); a
failing delete after a successful copy returns the delete error and leaves
the post-copy store, in which both paths exist. -/
theorem gcsRename_copy_then_delete (st : GStore) (oldPath newPath : String)
    (c : Content) (e : Err) (hold : st oldPath = some c) :
    (∀ df, gcsRename (some e) df st oldPath newPath = (st, some e)) ∧
    ((gcsRename none (some e) st oldPath newPath).2 = some e ∧
     (gcsRename none (some e) st oldPath newPath).1
       = (gcsCopy none st oldPath newPath).1 ∧
     gcsExists none (gcsRename none (some e) st oldPath newPath).1 oldPath
       = (true, none) ∧
     gcsExists none (gcsRename none (some e) st oldPath newPath).1 newPath
       = (true, none)) := by
  refine ⟨fun df => rfl, ?_, ?_, ?_, ?_⟩
  · simp [gcsRename, gcsCopy, gcsDelete, hold]
  · simp [gcsRename, gcsCopy, gcsDelete, hold]
  · simp [gcsRename, gcsCopy, gcsDelete, hold, gcsExists, ite_self]
  · simp [gcsRename, gcsCopy, gcsDelete, hold, gcsExists]

/-- A sample GCS bucket holding one object `"a"` with bytes `[9]`. -/
def gA : GStore := fun p => if p = "a" then some [9] else none

/-- Witness for C6 at a concrete bucket, with the fault `injected 7` on each
step in turn. -/
theorem gcsRename_copy_then_delete_witness :
    gcsRename (some (.injected 7)) none gA "a" "b" = (gA, some (.injected 7)) ∧
    (gcsRename none (some (.injected 7)) gA "a" "b").2 = some (.injected 7) ∧
    gcsExists none (gcsRename none (some (.injected 7)) gA "a" "b").1 "a"
      = (true, none) ∧
    gcsExists none (gcsRename none (some (.injected 7)) gA "a" "b").1 "b"
      = (true, none) := by
  have h := gcsRename_copy_then_delete gA "a" "b" [9] (.injected 7) (by decide)
  exact ⟨h.1 none, h.2.1, h.2.2.2.1, h.2.2.2.2⟩

/-- C9: GCS `GetUrl` is pure string formatting over the bucket name and the
path, always returns a nil error, and never consults the remote store (its
result is the same for any two store states). -/
theorem gcsGetUrl_spec (bucketName : String) (st st' : GStore) (path : String) :
    gcsGetUrl bucketName st path
      = ("https://storage.googleapis.com/" ++ bucketName ++ "/" ++ path, none) ∧
    gcsGetUrl bucketName st path = gcsGetUrl bucketName st' path :=
  ⟨rfl, rfl⟩

/-- Counterexample to C2 as stated (every backend returns a non-nil handle):
on the memory backend a fully successful Upload returns a nil handle — the
Go code ends with `return nil, nil` — even though the bytes were stored. -/
theorem memUpload_nil_handle_counterexample :
    (memUpload newMemoryStorage (.ok [104]) "a.txt" "docs").2.2 = none ∧
    (memUpload newMemoryStorage (.ok [104]) "a.txt" "docs").2.1 = none ∧
    memRead (memUpload newMemoryStorage (.ok [104]) "a.txt" "docs").1 "docs/a.txt"
      = .ok [104] := by
  decide

/-- C2 (amended): a successful `Upload(stream, header, dir)` stores the
stream's bytes at the object path dir/name (the memory backend joins with
`filepath.Join`, which yields `dir ++ "/" ++ name` for clean inputs, the GCS
backend formats `dir ++ "/" ++ name` directly); the GCS backend returns the
result of `Open` on that path — a handle on the uploaded bytes — while the
memory backend returns a nil handle with a nil error. -/
theorem upload_stores (mst : MemState) (gst : GStore) (c : Content)
    (filename dir : String)
    (hjoin : filepathJoin dir filename = dir ++ "/" ++ filename) :
    ((memUpload mst (.ok c) filename dir).2 = (none, none) ∧
     memRead (memUpload mst (.ok c) filename dir).1 (dir ++ "/" ++ filename)
       = .ok c) ∧
    ((gcsUpload none none none gst c filename dir).1 (dir ++ "/" ++ filename)
       = some c ∧
     (gcsUpload none none none gst c filename dir).2
       = gcsOpen none (gcsUpload none none none gst c filename dir).1
           (dir ++ "/" ++ filename) ∧
     (gcsUpload none none none gst c filename dir).2 = .ok c) := by
  refine ⟨⟨rfl, ?_⟩, ?_, rfl, ?_⟩
  · simp [memUpload, memRead, hjoin]
  · simp [gcsUpload]
  · simp [gcsUpload, gcsOpen]

/-- Witness for C2 (amended) at concrete inputs where `filepath.Join` does
produce dir/name. -/
theorem upload_stores_witness :
    filepathJoin "docs" "a.txt" = "docs/a.txt" ∧
    memRead (memUpload newMemoryStorage (.ok [104, 105]) "a.txt" "docs").1 "docs/a.txt"
      = .ok [104, 105] ∧
    (gcsUpload none none none (fun _ => none) [104, 105] "a.txt" "docs").2
      = .ok [104, 105] := by
  have h := upload_stores newMemoryStorage (fun _ => none) [104, 105] "a.txt" "docs"
    (by decide)
  exact ⟨by decide, h.1.2, h.2.2.2⟩

end Fsys
